import Mathlib

/-
Verification development for the screenshot pipeline script in
src/images/index.js.

The script is a sequential pipeline: parse CLI settings, start a static
asset server with a catch-all proxy route, list sample files from a
sibling examples directory, and for each sample open a browser page,
wait for an in-page completion flag (with a 20 second timeout), write a
screenshot, and run a (no-op) md5 checksum check.  We embed the pure
decision logic directly and model the effectful pipeline as a trace of
events together with an Except-style success / failure result.
-/

set_option autoImplicit false

namespace Images

/-! ## Constants from the source -/

def examplesDirectory : String := "../examples/"

def destinationDirectory : String := "./screenshots"

def md5Directory : String := "./md5sum/lottie_web"

/-- The sample-file extension marker searched for with indexOf. -/
def jsonExt : String := ".json"

/-- The waitForFunction timeout bound, in milliseconds. -/
def waitTimeout : Nat := 20000

def timeoutMsg : String := "TimeoutError: waiting for function window._finished === true failed: timeout 20000ms exceeded"

/-! ## JavaScript String.prototype.indexOf

The source tests substring occurrence with indexOf(...) !== -1, both in
the catch-all server route and in the sample-file filter.  We embed
indexOf faithfully: the index of the first occurrence of the pattern,
or -1 when the pattern occurs nowhere. -/

def firstIndexOfAux (pat : List Char) : List Char → Nat → Int
  | [], i => if pat.isPrefixOf [] then (i : Int) else -1
  | c :: t, i => if pat.isPrefixOf (c :: t) then (i : Int) else firstIndexOfAux pat t (i + 1)

/-- JavaScript s.indexOf(pat): first index of pat in s, or -1. -/
def jsIndexOf (s pat : String) : Int :=
  firstIndexOfAux pat.toList s.toList 0

/-! ## Settings parser (getSettings, src lines 22-67)

A provided CLI option value is coerced by a per-option type function.
For the numeric options the source applies Number(val) and replaces NaN
or non-positive results with 1; we model the numeric interpretation of
the raw string as an Option Rat, none standing for NaN. -/

/-- Coercion function of the resolution and sampleRate options
(src lines 27-33 and 39-45): NaN or non-positive becomes 1. -/
def coerceNumber (val : Option ℚ) : ℚ :=
  match val with
  | none => 1
  | some value => if value ≤ 0 then 1 else value

/-- Coercion function of the renderer option (src line 51):
a value outside the recognized list becomes the default svg. -/
def coerceRenderer (value : String) : String :=
  if value ∈ ["svg", "canvas", "skottie"] then value else "svg"

/-- The command line, as consumed by commandLineArgs: for each option,
none when the flag is absent, otherwise the raw value (numeric options
carry their Number(val) interpretation, none for NaN). -/
structure CLIArgs where
  resolution : Option (Option ℚ) := none
  sampleRate : Option (Option ℚ) := none
  renderer : Option String := none

structure Settings where
  renderer : String
  resolution : ℚ
  sampleRate : ℚ
deriving DecidableEq

/-- getSettings (src lines 22-67): coerced provided options spread over
the defaults object. -/
def getSettings (args : CLIArgs) : Settings :=
  { renderer :=
      match args.renderer with
      | some v => coerceRenderer v
      | none => "svg"
    resolution :=
      match args.resolution with
      | some v => coerceNumber v
      | none => 1
    sampleRate :=
      match args.sampleRate with
      | some v => coerceNumber v
      | none => 1 }

/-! ## The static asset server catch-all route (src lines 165-178)

The file system is modelled as a partial map from path strings to file
contents; none models any read failure (readFile rejecting).  The
handler concatenates the two dots onto the raw request URL, branches on
indexOf of the extension marker, and on any read failure answers with
res.send of an empty string (status 200). -/

def FS := String → Option String

structure Response where
  status : Nat
  contentType : Option String
  body : String
deriving DecidableEq

/-- The app.get catch-all handler (src lines 165-178).  contentType none
models res.send and res.end without an explicit header. -/
def catchAllHandler (fs : FS) (url : String) : Response :=
  if jsIndexOf url jsonExt != -1 then
    match fs (".." ++ url) with
    | some file => { status := 200, contentType := none, body := file }
    | none => { status := 200, contentType := none, body := "" }
  else
    match fs (".." ++ url) with
    | some data => { status := 200, contentType := some "image/jpeg", body := data }
    | none => { status := 200, contentType := none, body := "" }

/-! ## Events and effectful computations

The effectful pipeline is modelled as a trace of externally observable
events paired with an Except result: error propagation mirrors a thrown
and uncaught exception in the await chain. -/

inductive Event where
  | pageOpen (path : String)
  | screenshotWrite (path : String)
  | fileWrite (path : String) (contents : String)
  | enforce (msg : String)
  | logError (msg : String)
deriving DecidableEq

/-- An effectful computation: emitted events plus success or failure. -/
def EComp := List Event × Except String Unit

/-- Sequencing of effectful steps: an error short-circuits, exactly as a
rejected await aborts the rest of an async function. -/
def eseq (a b : EComp) : EComp :=
  match a with
  | (evs, Except.ok ()) =>
    match b with
    | (evs2, r) => (evs ++ evs2, r)
  | (evs, Except.error e) => (evs, Except.error e)

def elift (r : Except String Unit) : EComp := ([], r)

/-! ## Browser driver (startPage, createFilmStrip) -/

/-- The observable behaviour of a harness page: the time, in
milliseconds, at which window._finished becomes true (none if never). -/
structure Page where
  finishedAt : Option Nat
deriving DecidableEq

/-- page.waitForFunction with the 20000 ms timeout (src lines 197-199):
succeeds exactly when the flag becomes true within the bound. -/
def waitForFinishedFlag (p : Page) : Except String Unit :=
  match p.finishedAt with
  | some t => if t ≤ waitTimeout then Except.ok () else Except.error timeoutMsg
  | none => Except.error timeoutMsg

/-- createFilmStrip (src lines 196-204): wait for the completion flag,
then write the screenshot.  On timeout the wait rejects and no
screenshot write happens. -/
def createFilmStrip (p : Page) (path : String) : EComp :=
  match waitForFinishedFlag p with
  | Except.ok () => ([Event.screenshotWrite path], Except.ok ())
  | Except.error e => ([], Except.error e)

/-! ## Checksum checker (getFileAsString, checkMD5Sum) -/

/-- getFileAsString (src lines 218-225): total over read failures,
returning the empty string on any error. -/
def getFileAsString (fs : FS) (path : String) : String :=
  match fs path with
  | some s => s
  | none => ""

/-- checkMD5Sum (src lines 227-238).  The md5 hash function of the
md5-file library is an abstract parameter over file contents; md5File
rejects when the hashed file is unreadable.  Both comparison branches of
the source hold only comments, so no event is ever emitted. -/
def checkMD5Sum (md5 : String → String) (fs : FS) (fileName filePath : String) : EComp :=
  let md5FilePath := md5Directory ++ "/" ++ fileName ++ ".md5"
  let md5StoredValue := getFileAsString fs md5FilePath
  if md5StoredValue = "" then
    ([], Except.ok ())
  else
    match fs filePath with
    | none => ([], Except.error "ENOENT")
    | some contents =>
      let md5Value := md5 contents
      if md5Value ≠ md5StoredValue then
        ([], Except.ok ())
      else
        ([], Except.ok ())

/-! ## Pipeline driver (processPage, iteratePages, takeImageStrip)

The environment collects everything the run observes from outside: the
results of the stage-level effects, the directory listing, the page
behaviour per sample path, the file system and the hash function.  The
query-string construction of startPage is abstracted to the sample path
argument, the only per-sample part of the target URL. -/

structure Env where
  serverStart : Except String Unit
  cliArgs : CLIArgs
  browserLaunch : Except String Unit
  dirListing : Except String (List String)
  pageOf : String → Page
  md5 : String → String
  fs : FS
  browserClose : Except String Unit

/-- startPage (src lines 184-194): open a new page navigated to the
harness URL for the given sample path. -/
def startPage (env : Env) (path : String) : List Event × Page :=
  ([Event.pageOpen path], env.pageOf path)

/-- The screenshot destination path used by processPage (src line 242). -/
def screenshotPath (file : String) : String :=
  destinationDirectory ++ "/" ++ file ++ ".png"

/-- processPage (src lines 240-245): open the page, create the film
strip, then run the checksum check. -/
def processPage (env : Env) (file : String) : EComp :=
  match startPage env (examplesDirectory ++ file) with
  | (evs, page) =>
    eseq (evs, Except.ok ())
      (eseq (createFilmStrip page (screenshotPath file))
        (checkMD5Sum env.md5 env.fs file (screenshotPath file)))

/-- The serial per-sample loop of iteratePages (src lines 250-253). -/
def processList (env : Env) : List String → EComp
  | [] => ([], Except.ok ())
  | f :: rest => eseq (processPage env f) (processList env rest)

/-- iteratePages (src lines 247-254): list the examples directory,
filter to names containing the extension marker, process serially. -/
def iteratePages (env : Env) : EComp :=
  match env.dirListing with
  | Except.error e => ([], Except.error e)
  | Except.ok files => processList env (files.filter (fun f => jsIndexOf f jsonExt != -1))

/-- takeImageStrip (src lines 256-268): the full run.  On success the
process exits with explicit code 0; on any failure the error is logged
and no exit code is assigned (modelled as none), so the process ends on
the default runtime path. -/
def takeImageStrip (env : Env) : List Event × Option Nat :=
  let _settings := getSettings env.cliArgs
  match eseq (elift env.serverStart)
      (eseq (elift env.browserLaunch)
        (eseq (iteratePages env) (elift env.browserClose))) with
  | (evs, Except.ok ()) => (evs, some 0)
  | (evs, Except.error e) => (evs ++ [Event.logError e], none)

/-! ## Helper lemmas -/

theorem string_data_append (s t : String) : (s ++ t).data = s.data ++ t.data := by
  cases s
  cases t
  rfl

theorem string_ext {s t : String} (h : s.data = t.data) : s = t := by
  cases s
  cases t
  exact congrArg String.mk h

theorem screenshotPath_inj {f g : String} (h : screenshotPath f = screenshotPath g) : f = g := by
  have h2 := congrArg String.data h
  simp only [screenshotPath, destinationDirectory, string_data_append] at h2
  exact string_ext (List.append_cancel_left (List.append_cancel_right h2))

theorem checkMD5Sum_fst (md5 : String → String) (fs : FS) (fileName filePath : String) :
    (checkMD5Sum md5 fs fileName filePath).1 = [] := by
  by_cases hs : getFileAsString fs (md5Directory ++ "/" ++ fileName ++ ".md5") = ""
  · simp [checkMD5Sum, hs]
  · cases hfp : fs filePath with
    | none => simp [checkMD5Sum, hs, hfp]
    | some contents => simp [checkMD5Sum, hs, hfp]

/-! ## Concrete environments used by concrete runs and witnesses -/

def fsEmpty : FS := fun _ => none

def envOk : Env :=
  { serverStart := Except.ok ()
    cliArgs := {}
    browserLaunch := Except.ok ()
    dirListing := Except.ok []
    pageOf := fun _ => { finishedAt := some 0 }
    md5 := fun s => s
    fs := fsEmpty
    browserClose := Except.ok () }

/-! ## Claim theorems -/

/-- Claim C3: a valid positive numeric CLI value for resolution or
sampleRate is returned exactly; a non-numeric (NaN) or non-positive
value is replaced by 1. -/
theorem getSettings_numeric_clamp (a : CLIArgs) (x : ℚ) :
    (0 < x →
      (getSettings { a with resolution := some (some x) }).resolution = x ∧
      (getSettings { a with sampleRate := some (some x) }).sampleRate = x) ∧
    (x ≤ 0 →
      (getSettings { a with resolution := some (some x) }).resolution = 1 ∧
      (getSettings { a with sampleRate := some (some x) }).sampleRate = 1) ∧
    (getSettings { a with resolution := some none }).resolution = 1 ∧
    (getSettings { a with sampleRate := some none }).sampleRate = 1 := by
  refine ⟨fun hx => ?_, fun hx => ?_, rfl, rfl⟩
  · have h : ¬x ≤ 0 := not_le.mpr hx
    exact ⟨by simp [getSettings, coerceNumber, h], by simp [getSettings, coerceNumber, h]⟩
  · exact ⟨by simp [getSettings, coerceNumber, hx], by simp [getSettings, coerceNumber, hx]⟩

/-- Witness for C3 at concrete inputs: 3/2 kept, -2 and NaN clamped to 1. -/
theorem getSettings_numeric_clamp_witness :
    (getSettings { ({} : CLIArgs) with resolution := some (some (3 / 2 : ℚ)) }).resolution = 3 / 2 ∧
    (getSettings { ({} : CLIArgs) with sampleRate := some (some (-2 : ℚ)) }).sampleRate = 1 ∧
    (getSettings { ({} : CLIArgs) with resolution := some none }).resolution = 1 :=
  ⟨((getSettings_numeric_clamp {} (3 / 2)).1 (by norm_num)).1,
   ((getSettings_numeric_clamp {} (-2)).2.1 (by norm_num)).2,
   (getSettings_numeric_clamp {} 0).2.2.1⟩

/-- Claim C4: each of the three recognized renderer identifiers is
returned unchanged; any other value is replaced by the default svg. -/
theorem getSettings_renderer_fallback (a : CLIArgs) (v : String) :
    ((v = "svg" ∨ v = "canvas" ∨ v = "skottie") →
      (getSettings { a with renderer := some v }).renderer = v) ∧
    (¬(v = "svg" ∨ v = "canvas" ∨ v = "skottie") →
      (getSettings { a with renderer := some v }).renderer = "svg") := by
  have hmem : v ∈ ["svg", "canvas", "skottie"] ↔ (v = "svg" ∨ v = "canvas" ∨ v = "skottie") := by
    simp
  constructor
  · intro h
    simp [getSettings, coerceRenderer, hmem.mpr h]
  · intro h
    have h2 : ¬v ∈ ["svg", "canvas", "skottie"] := fun hm => h (hmem.mp hm)
    simp [getSettings, coerceRenderer, h2]

/-- Witness for C4: canvas is kept, webgl falls back to svg. -/
theorem getSettings_renderer_fallback_witness :
    (getSettings { ({} : CLIArgs) with renderer := some "canvas" }).renderer = "canvas" ∧
    (getSettings { ({} : CLIArgs) with renderer := some "webgl" }).renderer = "svg" :=
  ⟨(getSettings_renderer_fallback {} "canvas").1 (Or.inr (Or.inl rfl)),
   (getSettings_renderer_fallback {} "webgl").2 (by decide)⟩

/-- Claim C6: the catch-all proxy route always answers with status 200,
and when the target file cannot be read it answers 200 with an empty
body, never a 404 or 500. -/
theorem proxy_missing_file_ok (fs : FS) (url : String) :
    (catchAllHandler fs url).status = 200 ∧
    (fs (".." ++ url) = none →
      catchAllHandler fs url = { status := 200, contentType := none, body := "" }) := by
  constructor
  · unfold catchAllHandler
    split
    · cases hfs : fs (".." ++ url) <;> simp [hfs]
    · cases hfs : fs (".." ++ url) <;> simp [hfs]
  · intro h
    unfold catchAllHandler
    split <;> simp [h]

/-- Witness for C6: a missing file yields an empty 200 response. -/
theorem proxy_missing_file_ok_witness :
    catchAllHandler fsEmpty "/examples/missing.json" =
      { status := 200, contentType := none, body := "" } :=
  (proxy_missing_file_ok fsEmpty "/examples/missing.json").2 rfl

/-- Claim C8: checkMD5Sum emits no externally observable action in any
case: no events ever, and a clean no-op result both when the stored hash
is absent and when the screenshot is readable (hash equal or not). -/
theorem checkMD5Sum_noop (md5 : String → String) (fs : FS) (fileName filePath : String) :
    (checkMD5Sum md5 fs fileName filePath).1 = [] ∧
    (getFileAsString fs (md5Directory ++ "/" ++ fileName ++ ".md5") = "" →
      checkMD5Sum md5 fs fileName filePath = ([], Except.ok ())) ∧
    (∀ contents, fs filePath = some contents →
      checkMD5Sum md5 fs fileName filePath = ([], Except.ok ())) := by
  refine ⟨checkMD5Sum_fst md5 fs fileName filePath, fun h => ?_, fun contents hc => ?_⟩
  · simp only [checkMD5Sum]
    rw [if_pos h]
  · by_cases hs : getFileAsString fs (md5Directory ++ "/" ++ fileName ++ ".md5") = ""
    · simp only [checkMD5Sum]
      rw [if_pos hs]
    · simp [checkMD5Sum, hs, hc]

/-- Witness for C8: no action with no stored hash, and no action on a
stored hash that differs from the computed one. -/
theorem checkMD5Sum_noop_witness :
    checkMD5Sum (fun s => s) fsEmpty "a.json" "./screenshots/a.json.png" = ([], Except.ok ()) ∧
    checkMD5Sum (fun _ => "freshhash")
      (fun p => if p = "./md5sum/lottie_web/a.json.md5" then some "storedhash"
        else if p = "./screenshots/a.json.png" then some "imagebytes" else none)
      "a.json" "./screenshots/a.json.png" = ([], Except.ok ()) :=
  ⟨(checkMD5Sum_noop (fun s => s) fsEmpty "a.json" "./screenshots/a.json.png").2.1 (by decide),
   (checkMD5Sum_noop (fun _ => "freshhash")
      (fun p => if p = "./md5sum/lottie_web/a.json.md5" then some "storedhash"
        else if p = "./screenshots/a.json.png" then some "imagebytes" else none)
      "a.json" "./screenshots/a.json.png").2.2 "imagebytes" (by decide)⟩

/-- Claim C10: getFileAsString is total over read failures, returning
the empty string, and checkMD5Sum then takes the new-file branch and
returns cleanly when the stored hash file is missing. -/
theorem getFileAsString_total_newfile (md5 : String → String) (fs : FS)
    (fileName filePath : String)
    (h : fs (md5Directory ++ "/" ++ fileName ++ ".md5") = none) :
    getFileAsString fs (md5Directory ++ "/" ++ fileName ++ ".md5") = "" ∧
    checkMD5Sum md5 fs fileName filePath = ([], Except.ok ()) := by
  have h1 : getFileAsString fs (md5Directory ++ "/" ++ fileName ++ ".md5") = "" := by
    simp [getFileAsString, h]
  refine ⟨h1, ?_⟩
  simp only [checkMD5Sum]
  rw [if_pos h1]

/-- Witness for C10 on an empty file system. -/
theorem getFileAsString_total_newfile_witness :
    getFileAsString fsEmpty (md5Directory ++ "/" ++ "b.json" ++ ".md5") = "" ∧
    checkMD5Sum (fun s => s) fsEmpty "b.json" "./screenshots/b.json.png" = ([], Except.ok ()) :=
  getFileAsString_total_newfile (fun s => s) fsEmpty "b.json" "./screenshots/b.json.png" rfl

/-! ## Characterization of jsIndexOf as substring occurrence -/

theorem isPrefixOf_iff_exists_append {l1 l2 : List Char} :
    l1.isPrefixOf l2 = true ↔ ∃ t, l2 = l1 ++ t := by
  induction l1 generalizing l2 with
  | nil => simp [List.isPrefixOf]
  | cons a t ih =>
    cases l2 with
    | nil => simp [List.isPrefixOf]
    | cons b t2 =>
      simp only [List.isPrefixOf, Bool.and_eq_true, beq_iff_eq, ih, List.cons_append]
      constructor
      · rintro ⟨rfl, t3, rfl⟩
        exact ⟨t3, rfl⟩
      · rintro ⟨t3, h⟩
        injection h with h1 h2
        exact ⟨h1.symm, t3, h2⟩

theorem firstIndexOfAux_ne_neg_one (pat : List Char) (s : List Char) (i : Nat) :
    firstIndexOfAux pat s i ≠ -1 ↔ ∃ pre post, s = pre ++ pat ++ post := by
  induction s generalizing i with
  | nil =>
    have hunf : firstIndexOfAux pat [] i =
        if pat.isPrefixOf [] then (i : Int) else -1 := rfl
    rw [hunf]
    by_cases hp : pat.isPrefixOf ([] : List Char) = true
    · obtain ⟨t, ht⟩ := isPrefixOf_iff_exists_append.mp hp
      have hpat : pat = [] := (List.append_eq_nil.mp ht.symm).1
      rw [if_pos hp]
      constructor
      · intro _
        exact ⟨[], [], by simp [hpat]⟩
      · intro _
        omega
    · rw [if_neg hp]
      constructor
      · intro h
        exact absurd rfl h
      · rintro ⟨pre, post, h⟩
        have h2 := List.append_eq_nil.mp (List.append_eq_nil.mp h.symm).1
        exact absurd (isPrefixOf_iff_exists_append.mpr ⟨[], by simp [h2.2]⟩) hp
  | cons c t ih =>
    have hunf : firstIndexOfAux pat (c :: t) i =
        if pat.isPrefixOf (c :: t) then (i : Int) else firstIndexOfAux pat t (i + 1) := rfl
    rw [hunf]
    by_cases hp : pat.isPrefixOf (c :: t) = true
    · rw [if_pos hp]
      constructor
      · intro _
        obtain ⟨t3, ht3⟩ := isPrefixOf_iff_exists_append.mp hp
        exact ⟨[], t3, by simp [ht3]⟩
      · intro _
        omega
    · rw [if_neg hp, ih]
      constructor
      · rintro ⟨pre, post, h⟩
        exact ⟨c :: pre, post, by simp [h]⟩
      · rintro ⟨pre, post, h⟩
        cases pre with
        | nil =>
          exact absurd (isPrefixOf_iff_exists_append.mpr ⟨post, by simpa using h⟩) hp
        | cons d pre2 =>
          injection h with h1 h2
          exact ⟨pre2, post, h2⟩

/-- jsIndexOf finds the pattern exactly when it occurs, as a contiguous
substring, anywhere in the receiver. -/
theorem jsIndexOf_ne_neg_one (s pat : String) :
    jsIndexOf s pat ≠ -1 ↔ ∃ pre post, s.toList = pre ++ pat.toList ++ post :=
  firstIndexOfAux_ne_neg_one pat.toList s.toList 0

/-- Claim C7: for a readable target, a URL containing the extension
marker is answered as text, any other URL as binary with the image
content-type, from the path one level up. -/
theorem proxy_json_text_else_jpeg (fs : FS) (url d : String)
    (h : fs (".." ++ url) = some d) :
    ((∃ pre post, url.toList = pre ++ jsonExt.toList ++ post) →
      catchAllHandler fs url = { status := 200, contentType := none, body := d }) ∧
    (¬(∃ pre post, url.toList = pre ++ jsonExt.toList ++ post) →
      catchAllHandler fs url = { status := 200, contentType := some "image/jpeg", body := d }) := by
  constructor
  · intro hm
    have hb : (jsIndexOf url jsonExt != -1) = true := by
      simpa using (jsIndexOf_ne_neg_one url jsonExt).mpr hm
    simp [catchAllHandler, hb, h]
  · intro hm
    have hb : ¬(jsIndexOf url jsonExt != -1) = true := by
      simp only [bne_iff_ne, ne_eq, not_not]
      by_contra hne
      exact hm ((jsIndexOf_ne_neg_one url jsonExt).mp hne)
    simp [catchAllHandler, hb, h]

/-- File system used by the proxy witnesses. -/
def fsDemo : FS := fun p =>
  if p = "../examples/anim.json" then some "animdata"
  else if p = "../examples/img.png" then some "imgbytes"
  else none

/-- Witness for C7: a json sample path answered as text, an image path
answered as jpeg binary. -/
theorem proxy_json_text_else_jpeg_witness :
    catchAllHandler fsDemo "/examples/anim.json" =
      { status := 200, contentType := none, body := "animdata" } ∧
    catchAllHandler fsDemo "/examples/img.png" =
      { status := 200, contentType := some "image/jpeg", body := "imgbytes" } :=
  ⟨(proxy_json_text_else_jpeg fsDemo "/examples/anim.json" "animdata" (by decide)).1
      ⟨"/examples/anim".toList, [], by decide⟩,
   (proxy_json_text_else_jpeg fsDemo "/examples/img.png" "imgbytes" (by decide)).2
      (fun hm => ((jsIndexOf_ne_neg_one "/examples/img.png" jsonExt).mpr hm) (by decide))⟩

/-- Claim C9: the catch-all route consults exactly the literal
concatenation of the two dots and the raw URL, with no normalization or
containment check, serves any file readable at that raw path, and picks
the binary image branch exactly when the marker occurs nowhere in the
URL and the file is readable. -/
theorem proxy_raw_concat_no_normalization (fs fs2 : FS) (url d : String) :
    (fs (".." ++ url) = fs2 (".." ++ url) → catchAllHandler fs url = catchAllHandler fs2 url) ∧
    (fs (".." ++ url) = some d →
      (catchAllHandler fs url).status = 200 ∧ (catchAllHandler fs url).body = d) ∧
    ((catchAllHandler fs url).contentType = some "image/jpeg" ↔
      ¬(∃ pre post, url.toList = pre ++ jsonExt.toList ++ post) ∧
        (fs (".." ++ url)).isSome = true) := by
  refine ⟨fun h => ?_, fun h => ?_, ?_⟩
  · unfold catchAllHandler
    rw [h]
  · unfold catchAllHandler
    split <;> simp [h]
  · rw [show (¬∃ pre post, url.toList = pre ++ jsonExt.toList ++ post) ↔
        ¬jsIndexOf url jsonExt ≠ -1 from
      not_congr (jsIndexOf_ne_neg_one url jsonExt).symm]
    unfold catchAllHandler
    by_cases hb : (jsIndexOf url jsonExt != -1) = true
    · have hne : jsIndexOf url jsonExt ≠ -1 := by simpa using hb
      rw [if_pos hb]
      cases hfs : fs (".." ++ url) <;> simp [hne]
    · have hne : ¬jsIndexOf url jsonExt ≠ -1 := by simpa using hb
      rw [if_neg hb]
      cases hfs : fs (".." ++ url) <;> simp [hne, hfs]

/-- File system holding a file outside the examples sibling tree. -/
def fsSecret : FS := fun p =>
  if p = "../../secrets/key.png" then some "topsecret" else none

/-- Witness for C9: a URL climbing out of the served tree is looked up
at the raw concatenated path and served as jpeg, and a URL whose marker
sits mid-path is forced off the image branch. -/
theorem proxy_raw_concat_no_normalization_witness :
    ((catchAllHandler fsSecret "/../secrets/key.png").status = 200 ∧
      (catchAllHandler fsSecret "/../secrets/key.png").body = "topsecret") ∧
    (catchAllHandler fsSecret "/../secrets/key.png").contentType = some "image/jpeg" ∧
    ¬(catchAllHandler fsDemo "/examples/anim.json").contentType = some "image/jpeg" :=
  ⟨(proxy_raw_concat_no_normalization fsSecret fsSecret "/../secrets/key.png" "topsecret").2.1
      (by decide),
   (proxy_raw_concat_no_normalization fsSecret fsSecret "/../secrets/key.png" "topsecret").2.2.mpr
      ⟨fun hm => ((jsIndexOf_ne_neg_one "/../secrets/key.png" jsonExt).mpr hm) (by decide),
        by decide⟩,
   fun hct =>
    (((proxy_raw_concat_no_normalization fsDemo fsDemo "/examples/anim.json" "animdata").2.2.mp
        hct).1)
      ⟨"/examples/anim".toList, [], by decide⟩⟩

/-! ## Lemmas about the effectful run model -/

theorem eseq_fst_ok (evs : List Event) (b : EComp) :
    eseq (evs, Except.ok ()) b = (evs ++ b.1, b.2) := by
  obtain ⟨e2, r⟩ := b
  rfl

theorem eseq_fst_err (evs : List Event) (e : String) (b : EComp) :
    eseq (evs, Except.error e) b = (evs, Except.error e) := rfl

theorem eseq_snd_ok_iff (a b : EComp) :
    (eseq a b).2 = Except.ok () ↔ a.2 = Except.ok () ∧ b.2 = Except.ok () := by
  obtain ⟨evs, r⟩ := a
  obtain ⟨evs2, r2⟩ := b
  cases r with
  | ok u =>
    cases u
    simp [eseq]
  | error e => simp [eseq]

theorem mem_eseq_fst {x : Event} {a b : EComp} (h : x ∈ (eseq a b).1) :
    x ∈ a.1 ∨ x ∈ b.1 := by
  obtain ⟨evs, r⟩ := a
  obtain ⟨evs2, r2⟩ := b
  cases r with
  | ok u =>
    cases u
    simpa [eseq] using h
  | error e => exact Or.inl (by simpa [eseq] using h)

theorem createFilmStrip_of_ok {p : Page} {path : String}
    (h : waitForFinishedFlag p = Except.ok ()) :
    createFilmStrip p path = ([Event.screenshotWrite path], Except.ok ()) := by
  simp [createFilmStrip, h]

theorem createFilmStrip_of_err {p : Page} {path : String} {e : String}
    (h : waitForFinishedFlag p = Except.error e) :
    createFilmStrip p path = ([], Except.error e) := by
  simp [createFilmStrip, h]

theorem processPage_eq (env : Env) (f : String) :
    processPage env f =
      eseq ([Event.pageOpen (examplesDirectory ++ f)], Except.ok ())
        (eseq (createFilmStrip (env.pageOf (examplesDirectory ++ f)) (screenshotPath f))
          (checkMD5Sum env.md5 env.fs f (screenshotPath f))) := rfl

theorem processPage_snd_err {env : Env} {f : String} {e : String}
    (h : waitForFinishedFlag (env.pageOf (examplesDirectory ++ f)) = Except.error e) :
    (processPage env f).2 = Except.error e := by
  rw [processPage_eq, createFilmStrip_of_err h, eseq_fst_err, eseq_fst_ok]

theorem mem_screenshot_processPage {env : Env} {f p : String}
    (h : Event.screenshotWrite p ∈ (processPage env f).1) :
    p = screenshotPath f ∧
      waitForFinishedFlag (env.pageOf (examplesDirectory ++ f)) = Except.ok () := by
  rw [processPage_eq, eseq_fst_ok] at h
  cases hw : waitForFinishedFlag (env.pageOf (examplesDirectory ++ f)) with
  | ok u =>
    cases u
    rw [createFilmStrip_of_ok hw, eseq_fst_ok, checkMD5Sum_fst] at h
    simp at h
    exact ⟨h, rfl⟩
  | error e =>
    rw [createFilmStrip_of_err hw, eseq_fst_err] at h
    simp at h

theorem processList_ok_forall {env : Env} {l : List String}
    (h : (processList env l).2 = Except.ok ()) :
    ∀ f ∈ l, (processPage env f).2 = Except.ok () := by
  induction l with
  | nil => simp
  | cons g rest ih =>
    have h2 := (eseq_snd_ok_iff (processPage env g) (processList env rest)).mp h
    intro f hf
    rcases List.mem_cons.mp hf with rfl | hf2
    · exact h2.1
    · exact ih h2.2 f hf2

theorem mem_screenshot_processList {env : Env} {l : List String} {p : String}
    (h : Event.screenshotWrite p ∈ (processList env l).1) :
    ∃ f ∈ l, p = screenshotPath f ∧
      waitForFinishedFlag (env.pageOf (examplesDirectory ++ f)) = Except.ok () := by
  induction l with
  | nil => simp [processList] at h
  | cons g rest ih =>
    rcases mem_eseq_fst h with h1 | h2
    · obtain ⟨hp, hw⟩ := mem_screenshot_processPage h1
      exact ⟨g, List.mem_cons_self g rest, hp, hw⟩
    · obtain ⟨f, hf, hp, hw⟩ := ih h2
      exact ⟨f, List.mem_cons_of_mem g hf, hp, hw⟩

theorem takeImageStrip_eq (env : Env) :
    takeImageStrip env =
      match eseq (elift env.serverStart)
          (eseq (elift env.browserLaunch)
            (eseq (iteratePages env) (elift env.browserClose))) with
      | (evs, Except.ok ()) => (evs, some 0)
      | (evs, Except.error e) => (evs ++ [Event.logError e], none) := rfl

theorem chain_snd_ok_iff (env : Env) :
    (eseq (elift env.serverStart)
      (eseq (elift env.browserLaunch)
        (eseq (iteratePages env) (elift env.browserClose)))).2 = Except.ok () ↔
    (env.serverStart = Except.ok () ∧ env.browserLaunch = Except.ok () ∧
      (iteratePages env).2 = Except.ok () ∧ env.browserClose = Except.ok ()) := by
  rw [eseq_snd_ok_iff, eseq_snd_ok_iff, eseq_snd_ok_iff]
  simp [elift]

theorem mem_chain_fst {env : Env} {x : Event}
    (h : x ∈ (eseq (elift env.serverStart)
      (eseq (elift env.browserLaunch)
        (eseq (iteratePages env) (elift env.browserClose)))).1) :
    x ∈ (iteratePages env).1 := by
  rcases mem_eseq_fst h with h1 | h2
  · simp [elift] at h1
  · rcases mem_eseq_fst h2 with h3 | h4
    · simp [elift] at h3
    · rcases mem_eseq_fst h4 with h5 | h6
      · exact h5
      · simp [elift] at h6

/-! ## Claims about the pipeline run -/

/-- Claim C1: if the in-page completion flag never becomes true within
the 20 second bound for some listed sample, the run ends on the failure
path, the error is logged by the top-level driver, and no screenshot is
written for that sample. -/
theorem timeout_aborts_run (env : Env) (files : List String) (file : String)
    (hl : env.dirListing = Except.ok files)
    (hf : file ∈ files.filter (fun f => jsIndexOf f jsonExt != -1))
    (ht : ∀ t, (env.pageOf (examplesDirectory ++ file)).finishedAt = some t → waitTimeout < t) :
    (takeImageStrip env).2 = none ∧
    Event.screenshotWrite (screenshotPath file) ∉ (takeImageStrip env).1 ∧
    ∃ msg, Event.logError msg ∈ (takeImageStrip env).1 := by
  have hw : waitForFinishedFlag (env.pageOf (examplesDirectory ++ file)) =
      Except.error timeoutMsg := by
    unfold waitForFinishedFlag
    cases hfin : (env.pageOf (examplesDirectory ++ file)).finishedAt with
    | none => rfl
    | some t =>
      have h1 : ¬t ≤ waitTimeout := not_le.mpr (ht t hfin)
      simp [h1]
  have hiter : (iteratePages env).2 ≠ Except.ok () := by
    intro hok
    rw [iteratePages, hl] at hok
    have := processList_ok_forall hok file hf
    rw [processPage_snd_err hw] at this
    exact Except.noConfusion this
  have hchain : (eseq (elift env.serverStart)
      (eseq (elift env.browserLaunch)
        (eseq (iteratePages env) (elift env.browserClose)))).2 ≠ Except.ok () :=
    fun hok => hiter ((chain_snd_ok_iff env).mp hok).2.2.1
  rcases hch : eseq (elift env.serverStart)
      (eseq (elift env.browserLaunch)
        (eseq (iteratePages env) (elift env.browserClose))) with ⟨evs, r⟩
  have hnoshot : Event.screenshotWrite (screenshotPath file) ∉ evs := by
    intro hmem
    have hmem2 : Event.screenshotWrite (screenshotPath file) ∈
        (eseq (elift env.serverStart)
          (eseq (elift env.browserLaunch)
            (eseq (iteratePages env) (elift env.browserClose)))).1 := by
      rw [hch]
      exact hmem
    have hmem3 := mem_chain_fst hmem2
    rw [iteratePages, hl] at hmem3
    obtain ⟨f, _, hp, hwf⟩ := mem_screenshot_processList hmem3
    rw [← screenshotPath_inj hp, hw] at hwf
    exact Except.noConfusion hwf
  cases r with
  | ok u =>
    cases u
    exact absurd (by rw [hch]) hchain
  | error e =>
    rw [takeImageStrip_eq, hch]
    refine ⟨rfl, ?_, e, by simp⟩
    intro hmem
    rcases List.mem_append.mp hmem with h1 | h2
    · exact hnoshot h1
    · simp at h2

/-- Environment of a run whose single sample never reports completion. -/
def envTimeout : Env :=
  { envOk with
    dirListing := Except.ok ["a.json"]
    pageOf := fun _ => { finishedAt := none } }

/-- Witness for C1: a run over one sample whose page never finishes
exits on the failure path with the error logged and no screenshot. -/
theorem timeout_aborts_run_witness :
    (takeImageStrip envTimeout).2 = none ∧
    Event.screenshotWrite (screenshotPath "a.json") ∉ (takeImageStrip envTimeout).1 ∧
    ∃ msg, Event.logError msg ∈ (takeImageStrip envTimeout).1 :=
  timeout_aborts_run envTimeout ["a.json"] "a.json" rfl (by decide)
    (fun t h => by simp [envTimeout, envOk] at h)

theorem takeImageStrip_of_chain_ok {env : Env} {evs : List Event}
    (h : eseq (elift env.serverStart)
      (eseq (elift env.browserLaunch)
        (eseq (iteratePages env) (elift env.browserClose))) = (evs, Except.ok ())) :
    takeImageStrip env = (evs, some 0) := by
  rw [takeImageStrip_eq, h]

theorem takeImageStrip_of_chain_err {env : Env} {evs : List Event} {e : String}
    (h : eseq (elift env.serverStart)
      (eseq (elift env.browserLaunch)
        (eseq (iteratePages env) (elift env.browserClose))) = (evs, Except.error e)) :
    takeImageStrip env = (evs ++ [Event.logError e], none) := by
  rw [takeImageStrip_eq, h]

/-- Claim C2: the process exits with explicit code 0 exactly when every
stage of the run succeeds; on any failure the error is logged and no
explicit exit code is assigned, leaving the default runtime exit. -/
theorem exit_code_zero_iff_success (env : Env) :
    ((takeImageStrip env).2 = some 0 ↔
      env.serverStart = Except.ok () ∧ env.browserLaunch = Except.ok () ∧
        (iteratePages env).2 = Except.ok () ∧ env.browserClose = Except.ok ()) ∧
    ((takeImageStrip env).2 ≠ some 0 →
      (takeImageStrip env).2 = none ∧
        ∃ msg, Event.logError msg ∈ (takeImageStrip env).1) := by
  rcases hch : eseq (elift env.serverStart)
      (eseq (elift env.browserLaunch)
        (eseq (iteratePages env) (elift env.browserClose))) with ⟨evs, r⟩
  have hiff := chain_snd_ok_iff env
  rw [hch] at hiff
  cases r with
  | ok u =>
    cases u
    rw [takeImageStrip_of_chain_ok hch]
    exact ⟨⟨fun _ => hiff.mp rfl, fun _ => rfl⟩, fun hne => absurd rfl hne⟩
  | error e =>
    rw [takeImageStrip_of_chain_err hch]
    refine ⟨⟨fun h => Option.noConfusion h,
      fun hall => Except.noConfusion (hiff.mpr hall)⟩, fun _ => ⟨rfl, e, by simp⟩⟩

/-- Witness for C2: the all-successful run exits with code 0. -/
theorem exit_code_zero_iff_success_witness :
    (takeImageStrip envOk).2 = some 0 :=
  (exit_code_zero_iff_success envOk).1.mpr ⟨rfl, rfl, rfl, rfl⟩

/-- Environment whose examples directory lists a.json, b.json, c.txt. -/
def envC5 : Env :=
  { serverStart := Except.ok ()
    cliArgs := {}
    browserLaunch := Except.ok ()
    dirListing := Except.ok ["a.json", "b.json", "c.txt"]
    pageOf := fun _ => { finishedAt := some 0 }
    md5 := fun s => s
    fs := fsEmpty
    browserClose := Except.ok () }

/-- Claim C5: from the listing a.json, b.json, c.txt, only the two
json-named files pass the filter and the run opens a page and writes a
screenshot exactly for those two, skipping c.txt. -/
theorem run_filters_json_samples :
    List.filter (fun f => jsIndexOf f jsonExt != -1) ["a.json", "b.json", "c.txt"] =
      ["a.json", "b.json"] ∧
    takeImageStrip envC5 =
      ([Event.pageOpen "../examples/a.json",
        Event.screenshotWrite "./screenshots/a.json.png",
        Event.pageOpen "../examples/b.json",
        Event.screenshotWrite "./screenshots/b.json.png"], some 0) := by
  constructor
  · decide
  · decide

end Images
